import Mathlib

/-!
Verification development for the focused-ultrasound imaging pipeline.

The Python sources under src/pipeline are shallowly embedded here:
* floating-point samples are idealised as an inductive type `Sample`
  (NaN, plus or minus infinity, or an exact rational value); float
  arithmetic on finite values is idealised as exact rational arithmetic;
* a numpy 3D array is represented by its shape (a list of dimension
  sizes) together with the flattened list of its samples;
* a binary mask is represented by the finite set of its foreground
  voxel coordinates;
* the report strings produced by the validator are rebuilt with the
  exact wording of the source templates (numeric payloads are rendered
  as exact rationals; keyword classification only inspects the words).
-/

set_option maxRecDepth 40000

namespace Pipeline

/-- Idealised floating-point sample: NaN, an infinity, or a finite value. -/
inductive Sample where
  | nan : Sample
  | posInf : Sample
  | negInf : Sample
  | val : ℚ → Sample
deriving DecidableEq

namespace Sample

/-- np.isnan -/
def isNan : Sample → Bool
  | nan => true
  | _ => false

/-- np.isinf -/
def isInf : Sample → Bool
  | posInf => true
  | negInf => true
  | _ => false

/-- np.isfinite -/
def isFin : Sample → Bool
  | val _ => true
  | _ => false

/-- The rational value of a finite sample, with a default for the others. -/
def valD (d : ℚ) : Sample → ℚ
  | val q => q
  | _ => d

/-- IEEE-style non-strict comparison: any comparison with NaN is false. -/
def leB : Sample → Sample → Bool
  | nan, _ => false
  | _, nan => false
  | negInf, _ => true
  | _, negInf => false
  | posInf, posInf => true
  | val _, posInf => true
  | posInf, val _ => false
  | val a, val b => decide (a ≤ b)

/-- IEEE-style strict comparison: any comparison with NaN is false. -/
def ltB : Sample → Sample → Bool
  | nan, _ => false
  | _, nan => false
  | negInf, negInf => false
  | negInf, _ => true
  | _, negInf => false
  | posInf, _ => false
  | val _, posInf => true
  | val a, val b => decide (a < b)

end Sample

/-- ASCII lower-casing of one character, as used by str.lower on the
validator message templates (which are pure ASCII). -/
def asciiLower (c : Char) : Char :=
  if 'A' ≤ c ∧ c ≤ 'Z' then Char.ofNat (c.toNat + 32) else c

/-- str.lower -/
def lowerStr (s : String) : String := String.mk (s.data.map asciiLower)

/-- The Python substring test, needle in hay. -/
def containsSub (needle hay : String) : Bool :=
  decide (needle.data <:+: hay.data)

/-- Rendering of an integer, digit-exact. -/
def intStr (i : ℤ) : String :=
  if i < 0 then "-" ++ toString i.natAbs else toString i.natAbs

/-- Rendering of an exact rational numeric payload.  The Python code
formats floats in decimal; the embedding renders the exact rational.
Keyword classification only ever matches alphabetic words, which this
rendering never produces. -/
def ratStr (q : ℚ) : String :=
  if q.den = 1 then intStr q.num else intStr q.num ++ "/" ++ toString q.den

/-- Rendering of a possibly non-finite sample, as Python prints floats. -/
def sampleStr : Sample → String
  | .nan => "nan"
  | .posInf => "inf"
  | .negInf => "-inf"
  | .val q => ratStr q

/-- Container for validation results (validator.ValidationReport).
The three lists are populated front-to-back by the checks, in order. -/
structure ValidationReport where
  checks_passed : List String
  warnings : List String
  errors : List String
deriving DecidableEq

/-- Report holding a single passed check. -/
def passR (m : String) : ValidationReport := ⟨[m], [], []⟩

/-- Report holding a single warning. -/
def warnR (m : String) : ValidationReport := ⟨[], [m], []⟩

/-- Report holding a single error. -/
def errR (m : String) : ValidationReport := ⟨[], [], [m]⟩

/-- The empty report. -/
def emptyR : ValidationReport := ⟨[], [], []⟩

/-- Joining the contributions of successive checks: the sequential
add_pass, add_warning and add_error calls of the source produce
exactly the in-order concatenation of each check's findings. -/
def RJoin (l : List ValidationReport) : ValidationReport :=
  ⟨(l.map ValidationReport.checks_passed).flatten,
   (l.map ValidationReport.warnings).flatten,
   (l.map ValidationReport.errors).flatten⟩

/-- ValidationReport.is_valid: no errors were recorded. -/
def ValidationReport.is_valid (r : ValidationReport) : Bool := r.errors.isEmpty

/-- Loaded image data (loader.ImageData): the shape of the 3D array,
its flattened samples, the voxel spacing triple and the affine matrix
as a list of rows.  The audit-only fields (filepath, checksum, header)
play no part in validation or processing and are omitted. -/
structure ImageData where
  shape : List ℕ
  values : List Sample
  voxel_spacing : Sample × Sample × Sample
  affine : List (List Sample)

/-- ndarray.size: the number of samples of the flattened array. -/
def ImageData.size (img : ImageData) : ℕ := img.values.length

/-- Rendering of an array shape tuple. -/
def shapeStr (shape : List ℕ) : String :=
  "(" ++ String.intercalate ", " (shape.map toString) ++ ")"

/-- Error text of check 1 (wrong rank). -/
def ndimErrMsg (shape : List ℕ) : String :=
  "Pipeline requires 3D volumetric data, got " ++ toString shape.length ++
    "D array. Shape: " ++ shapeStr shape

/-- Pass text of check 1. -/
def ndimPassMsg (shape : List ℕ) : String :=
  "Dimensionality check: 3D (shape: " ++ shapeStr shape ++ ")"

/-- Check 2, one axis: dimension size within the configured bounds. -/
def dimSizeCheck (minDim maxDim i d : ℕ) : ValidationReport :=
  if d < minDim then
    errR ("Dimension " ++ toString i ++ " size (" ++ toString d ++
      ") below minimum threshold (" ++ toString minDim ++ " voxels)")
  else if maxDim < d then
    errR ("Dimension " ++ toString i ++ " size (" ++ toString d ++
      ") exceeds maximum threshold (" ++ toString maxDim ++ " voxels)")
  else
    passR ("Dimension " ++ toString i ++ " size valid: " ++ toString d ++ " voxels")

/-- Error text of check 3: encodes the exact NaN count and the exact
fraction of the total sample count. -/
def nanErrMsg (k n : ℕ) : String :=
  "Data contains " ++ toString k ++ " NaN values (" ++
    ratStr ((k : ℚ) / (n : ℚ) * 100) ++ "% of total voxels)"

/-- Check 3: no NaN samples. -/
def nanCheck (values : List Sample) : ValidationReport :=
  let k := values.countP Sample.isNan
  if 0 < k then errR (nanErrMsg k values.length)
  else passR "No NaN values detected"

/-- Error text of check 4: exact infinity count and fraction. -/
def infErrMsg (k n : ℕ) : String :=
  "Data contains " ++ toString k ++ " infinite values (" ++
    ratStr ((k : ℚ) / (n : ℚ) * 100) ++ "% of total voxels)"

/-- Check 4: no infinite samples. -/
def infCheck (values : List Sample) : ValidationReport :=
  let k := values.countP Sample.isInf
  if 0 < k then errR (infErrMsg k values.length)
  else passR "No infinite values detected"

/-- Arithmetic mean of a list of rationals. -/
def ratMean (xs : List ℚ) : ℚ := xs.sum / (xs.length : ℚ)

/-- Population variance, as computed by np.std squared: the mean of the
squared deviations from the mean. -/
def ratVar (xs : List ℚ) : ℚ :=
  ((xs.map (fun x => (x - ratMean xs) ^ 2)).sum) / (xs.length : ℚ)

/-- np.std(data) is NaN exactly when the data is empty or holds any
NaN or infinite sample; a comparison against NaN is then false. -/
def stdIsNan (values : List Sample) : Bool :=
  values.isEmpty || values.any (fun s => !s.isFin)

/-- Variance of the data ignoring the non-finite guard (only consulted
when all samples are finite). -/
def dataVar (values : List Sample) : ℚ := ratVar (values.map (Sample.valD 0))

/-- Check 5: the standard deviation must be at least 1e-10; on the
non-negative reals, std < 1e-10 holds exactly when variance < 1e-20. -/
def stdCheck (values : List Sample) : ValidationReport :=
  if !stdIsNan values && decide (dataVar values < (1 / 10 ^ 10 : ℚ) ^ 2) then
    errR ("Data has zero variance (std=sqrt(" ++ ratStr (dataVar values) ++
      ")), indicating constant values or numerical precision issues")
  else
    passR ("Data has non-zero variance (std=sqrt(" ++ ratStr (dataVar values) ++ "))")

/-- np.minimum folded over the samples: NaN propagates. -/
def sampleMin2 (a b : Sample) : Sample :=
  if a.isNan || b.isNan then .nan else if a.leB b then a else b

/-- np.maximum folded over the samples: NaN propagates. -/
def sampleMax2 (a b : Sample) : Sample :=
  if a.isNan || b.isNan then .nan else if a.leB b then b else a

/-- np.min -/
def npMin : List Sample → Sample
  | [] => .nan
  | x :: xs => xs.foldl sampleMin2 x

/-- np.max -/
def npMax : List Sample → Sample
  | [] => .nan
  | x :: xs => xs.foldl sampleMax2 x

/-- Check 6: value range against an optional expected envelope; a
mismatch is a warning, never an error. -/
def rangeCheck (values : List Sample) (rng : Option (ℚ × ℚ)) : ValidationReport :=
  let dmin := npMin values
  let dmax := npMax values
  match rng with
  | some (emin, emax) =>
      if dmin.ltB (.val emin) || (Sample.val emax).ltB dmax then
        warnR ("Data range [" ++ sampleStr dmin ++ ", " ++ sampleStr dmax ++
          "] outside expected range [" ++ ratStr emin ++ ", " ++ ratStr emax ++ "]")
      else
        passR ("Value range [" ++ sampleStr dmin ++ ", " ++ sampleStr dmax ++
          "] within expected bounds")
  | none =>
      passR ("Value range: [" ++ sampleStr dmin ++ ", " ++ sampleStr dmax ++ "]")

/-- Error text for a non-positive voxel spacing component. -/
def spacingPosErrMsg (i : ℕ) (sp : Sample) : String :=
  "Voxel spacing dimension " ++ toString i ++ " must be positive, got " ++
    sampleStr sp ++ " mm"

/-- Check 7, one axis (validator._validate_voxel_spacing): positivity,
finiteness, the hard physical bounds [0.01, 50.0] mm and the advisory
band [0.1, 10.0] mm. -/
def spacingCheckOne (i : ℕ) (sp : Sample) : ValidationReport :=
  if sp.leB (.val 0) then
    errR (spacingPosErrMsg i sp)
  else if !sp.isFin then
    errR ("Voxel spacing dimension " ++ toString i ++ " must be finite, got " ++
      sampleStr sp)
  else
    let q := sp.valD 0
    if q < 1 / 100 then
      errR ("Voxel spacing dimension " ++ toString i ++ " (" ++ ratStr q ++
        " mm) below minimum threshold (" ++ ratStr (1 / 100) ++ " mm)")
    else if 50 < q then
      errR ("Voxel spacing dimension " ++ toString i ++ " (" ++ ratStr q ++
        " mm) exceeds maximum threshold (" ++ ratStr 50 ++ " mm)")
    else if q < 1 / 10 ∨ 10 < q then
      warnR ("Unusual voxel spacing dimension " ++ toString i ++ ": " ++ ratStr q ++
        " mm (typical range: 0.1-10.0 mm)")
    else
      passR ("Voxel spacing dimension " ++ toString i ++ ": " ++ ratStr q ++ " mm")

/-- Check 7 over the three axes, in order. -/
def spacingCheck (sp : Sample × Sample × Sample) : ValidationReport :=
  RJoin [spacingCheckOne 0 sp.1, spacingCheckOne 1 sp.2.1, spacingCheckOne 2 sp.2.2]

/-- The affine has shape (4, 4).  A numpy array is rectangular, so the
embedded matrix is a list of four rows of four entries. -/
def affineShapeOk (A : List (List Sample)) : Prop :=
  A.length = 4 ∧ ∀ r ∈ A, r.length = 4

instance (A : List (List Sample)) : Decidable (affineShapeOk A) := by
  unfold affineShapeOk; infer_instance

/-- Every affine entry is finite. -/
def affineAllFin (A : List (List Sample)) : Bool :=
  A.all (fun r => r.all Sample.isFin)

/-- Entry (i, j) of the affine as a rational; only consulted after the
shape and finiteness checks have passed. -/
def affEntry (A : List (List Sample)) (i j : ℕ) : ℚ :=
  ((A.getD i []).getD j (.val 0)).valD 0

/-- np.allclose tolerance test with atol=1e-6 and the default
rtol=1e-5: abs (x - y) is at most atol + rtol * abs y. -/
def closeTo (x y : ℚ) : Prop :=
  |x - y| ≤ 1 / 10 ^ 6 + 1 / 10 ^ 5 * |y|

instance (x y : ℚ) : Decidable (closeTo x y) := by unfold closeTo; infer_instance

/-- The bottom row of the affine is [0, 0, 0, 1] within tolerance. -/
def bottomRowOk (A : List (List Sample)) : Prop :=
  closeTo (affEntry A 3 0) 0 ∧ closeTo (affEntry A 3 1) 0 ∧
    closeTo (affEntry A 3 2) 0 ∧ closeTo (affEntry A 3 3) 1

instance (A : List (List Sample)) : Decidable (bottomRowOk A) := by
  unfold bottomRowOk; infer_instance

/-- Determinant of the top-left 3x3 rotation/scale submatrix. -/
def det3 (A : List (List Sample)) : ℚ :=
  affEntry A 0 0 * (affEntry A 1 1 * affEntry A 2 2 - affEntry A 1 2 * affEntry A 2 1) -
    affEntry A 0 1 * (affEntry A 1 0 * affEntry A 2 2 - affEntry A 1 2 * affEntry A 2 0) +
    affEntry A 0 2 * (affEntry A 1 0 * affEntry A 2 1 - affEntry A 1 1 * affEntry A 2 0)

/-- Rendering of the affine bottom row, as numpy prints it. -/
def rowStr (r : List Sample) : String :=
  "[" ++ String.intercalate " " (r.map sampleStr) ++ "]"

/-- Error text for a singular rotation/scale submatrix. -/
def singularErrMsg (d : ℚ) : String :=
  "Affine rotation/scale submatrix is singular (det=" ++ ratStr d ++ ")"

/-- Warning text for a negative determinant (reflection). -/
def reflWarnMsg (d : ℚ) : String :=
  "Affine matrix has negative determinant (" ++ ratStr d ++
    "), indicating coordinate system reflection"

/-- Check 8 (validator._validate_affine_matrix): shape 4x4 (fatal if
not), all entries finite (fatal if not), bottom row [0, 0, 0, 1]
within tolerance, top-left 3x3 determinant of magnitude at least
1e-10, and a warning for a negative determinant. -/
def affineCheck (A : List (List Sample)) : ValidationReport :=
  if ¬ affineShapeOk A then
    errR ("Affine matrix must be 4x4, got shape (" ++ toString A.length ++ ", " ++
      toString (A.getD 0 []).length ++ ")")
  else if !affineAllFin A then
    RJoin [passR "Affine matrix is 4x4",
           errR "Affine matrix contains non-finite values (NaN or Inf)"]
  else
    RJoin [passR "Affine matrix is 4x4",
           passR "Affine matrix contains only finite values",
           if ¬ bottomRowOk A then
             errR ("Affine matrix bottom row must be [0, 0, 0, 1], got " ++
               rowStr (A.getD 3 []))
           else
             passR "Affine matrix bottom row is [0, 0, 0, 1]",
           if |det3 A| < 1 / 10 ^ 10 then
             errR (singularErrMsg (det3 A))
           else
             passR ("Affine rotation/scale submatrix is non-singular (det=" ++
               ratStr (det3 A) ++ ")"),
           if det3 A < 0 then
             warnR (reflWarnMsg (det3 A))
           else
             emptyR]

/-- validator.validate_image_data: a wrong rank is fatal and aborts all
remaining checks; otherwise all checks run and their findings are
accumulated in order. -/
def validate_image_data (img : ImageData) (minDim maxDim : ℕ)
    (rng : Option (ℚ × ℚ)) : ValidationReport :=
  if img.shape.length ≠ 3 then ⟨[], [], [ndimErrMsg img.shape]⟩
  else
    RJoin [passR (ndimPassMsg img.shape),
           RJoin (img.shape.enum.map (fun p => dimSizeCheck minDim maxDim p.1 p.2)),
           nanCheck img.values,
           infCheck img.values,
           stdCheck img.values,
           rangeCheck img.values rng,
           spacingCheck img.voxel_spacing,
           affineCheck img.affine]

/-- The typed failure raised by validate_or_raise, or ok. -/
inductive RaisedError where
  | ok : RaisedError
  | dimensionality : RaisedError
  | dataQuality : RaisedError
  | metadata : RaisedError
  | validation : RaisedError
deriving DecidableEq

/-- Some error text contains the given keyword after lower-casing. -/
def lowerHas (t : String) (errs : List String) : Bool :=
  errs.any (fun e => containsSub t (lowerStr e))

/-- validator.validate_or_raise: validates with the default limits and,
if the report is invalid, classifies the failure by keyword matching
over the accumulated error text, in the fixed priority order
dimensionality, data quality, metadata, generic. -/
def validate_or_raise (img : ImageData) : RaisedError :=
  let report := validate_image_data img 8 2048 none
  if report.is_valid then .ok
  else if report.errors.any (fun e => containsSub "3D" e || containsSub "dimension" (lowerStr e)) then
    .dimensionality
  else if ["nan", "infinite", "constant", "variance"].any (fun t => lowerHas t report.errors) then
    .dataQuality
  else if ["spacing", "affine", "matrix"].any (fun t => lowerHas t report.errors) then
    .metadata
  else
    .validation

/-! ### Processor: connected components, thresholding, target regions -/

/-- A voxel index of a 3D array. -/
abbrev Coord := ℕ × ℕ × ℕ

/-- 6-connectivity: two voxels are adjacent exactly when they share a
face, i.e. they differ by one in exactly one axis. -/
def faceAdj (p q : Coord) : Prop :=
  (p.2.1 = q.2.1 ∧ p.2.2 = q.2.2 ∧ (p.1 = q.1 + 1 ∨ q.1 = p.1 + 1)) ∨
    (p.1 = q.1 ∧ p.2.2 = q.2.2 ∧ (p.2.1 = q.2.1 + 1 ∨ q.2.1 = p.2.1 + 1)) ∨
    (p.1 = q.1 ∧ p.2.1 = q.2.1 ∧ (p.2.2 = q.2.2 + 1 ∨ q.2.2 = p.2.2 + 1))

instance (p q : Coord) : Decidable (faceAdj p q) := by unfold faceAdj; infer_instance

/-- Reachability inside a mask: the reflexive-transitive closure of
face-adjacency restricted to foreground voxels. -/
def reach (s : Finset Coord) : Coord → Coord → Prop :=
  Relation.ReflTransGen (fun a b => a ∈ s ∧ b ∈ s ∧ faceAdj a b)

/-- One breadth-first expansion step of a voxel set inside mask s. -/
def grow (s t : Finset Coord) : Finset Coord :=
  t ∪ s.filter (fun q => ∃ p ∈ t, faceAdj p q)

/-- The connected component of voxel p inside mask s: expanding from p
for s.card steps reaches the fixpoint. -/
def compOf (s : Finset Coord) (p : Coord) : Finset Coord :=
  (grow s)^[s.card] {p}

/-- Scan (lexicographic) order on voxel coordinates, the order in which
scipy.ndimage.label visits voxels and assigns component labels. -/
def coordLe (p q : Coord) : Prop :=
  p.1 < q.1 ∨ (p.1 = q.1 ∧ (p.2.1 < q.2.1 ∨ (p.2.1 = q.2.1 ∧ p.2.2 ≤ q.2.2)))

instance : DecidableRel coordLe := by intro p q; unfold coordLe; infer_instance

instance : IsTrans Coord coordLe := by
  constructor
  intro a b c hab hbc
  obtain ⟨a1, a2, a3⟩ := a
  obtain ⟨b1, b2, b3⟩ := b
  obtain ⟨c1, c2, c3⟩ := c
  simp only [coordLe] at hab hbc ⊢
  omega

instance : IsAntisymm Coord coordLe := by
  constructor
  intro a b hab hba
  obtain ⟨a1, a2, a3⟩ := a
  obtain ⟨b1, b2, b3⟩ := b
  simp only [coordLe] at hab hba
  simp only [Prod.mk.injEq]
  omega

instance : IsTotal Coord coordLe := by
  constructor
  intro a b
  simp only [coordLe]
  omega

/-- Modelled from the spec: scipy.ndimage.label labels the connected
components of the binary mask under 6-connectivity (face adjacency
only), assigning labels in scan order.  The components are listed as
voxel sets, one per label, in order of first touch. -/
def componentsList (s : Finset Coord) : List (Finset Coord) :=
  ((s.sort coordLe).map (compOf s)).dedup

/-- C is a connected component of mask s: a nonempty set of foreground
voxels, mutually reachable under in-mask face adjacency, and closed
under it. -/
def isComponent (s C : Finset Coord) : Prop :=
  C.Nonempty ∧ ↑C ⊆ ↑s ∧ (∀ a ∈ C, ∀ b ∈ C, reach s a b) ∧
    (∀ a ∈ C, ∀ b ∈ s, reach s a b → b ∈ C)

/-- Physical volume of a component: voxel count times the voxel volume
spacing_x * spacing_y * spacing_z. -/
def compVolume (sp : ℚ × ℚ × ℚ) (C : Finset Coord) : ℚ :=
  (C.card : ℚ) * (sp.1 * sp.2.1 * sp.2.2)

/-- Descending-volume comparison used to sort the (component, volume)
pairs; Python list.sort with reverse=True is stable, as is
List.insertionSort with this relation. -/
def volGe (a b : Finset Coord × ℚ) : Prop := b.2 ≤ a.2

instance : DecidableRel volGe := by intro a b; unfold volGe; infer_instance

instance : IsTrans (Finset Coord × ℚ) volGe :=
  ⟨fun _ _ _ hab hbc => le_trans hbc hab⟩

instance : IsTotal (Finset Coord × ℚ) volGe :=
  ⟨fun a b => (le_total b.2 a.2).elim Or.inl Or.inr⟩

/-- The (component, volume) pairs sorted by descending volume. -/
def sortedComps (mask : Finset Coord) (sp : ℚ × ℚ × ℚ) : List (Finset Coord × ℚ) :=
  ((componentsList mask).map (fun c => (c, compVolume sp c))).insertionSort volGe

/-- processor.extract_largest_connected_component: label the
components, compute their physical volumes, sort by volume descending
and return the first component whose volume reaches min_volume_mm3 as
a fresh mask, or none. -/
def extract_largest_connected_component (mask : Finset Coord)
    (min_volume_mm3 : ℚ) (sp : ℚ × ℚ × ℚ) : Option (Finset Coord) :=
  if (componentsList mask).length = 0 then none
  else
    match (sortedComps mask sp).find? (fun cv => decide (min_volume_mm3 ≤ cv.2)) with
    | some cv => some cv.1
    | none => none

/-! ### Segmenter -/

/-- np.percentile with the default linear interpolation, on the
flattened finite samples: the value at virtual index
(n - 1) * p / 100 of the ascending sort, interpolating between the
two bracketing samples. -/
def np_percentile (xs : List ℚ) (p : ℚ) : ℚ :=
  let s := xs.insertionSort (· ≤ ·)
  let h : ℚ := ((xs.length : ℚ) - 1) * p / 100
  let a := s.getD ⌊h⌋.toNat 0
  let b := s.getD ⌈h⌉.toNat 0
  a + (h - ⌊h⌋) * (b - a)

/-- processor.apply_intensity_threshold on the flattened data: marks
every sample at least the percentile value as foreground. -/
def apply_intensity_threshold (xs : List ℚ) (percentile : ℚ) : List Bool :=
  xs.map (fun x => decide (np_percentile xs percentile ≤ x))

/-- int(np.sum(binary_mask)) in
processor.process_image_for_target_identification: the number of
foreground voxels; the function raises ProcessingError when it is 0. -/
def voxels_above_threshold (xs : List ℚ) (percentile : ℚ) : ℕ :=
  (apply_intensity_threshold xs percentile).count true

/-! ### Target region and metrics -/

/-- processor.TargetRegion input state: the selected component mask
(as its foreground voxel set), the label and the voxel spacing. -/
structure TargetRegion where
  mask : Finset Coord
  label : ℕ
  voxel_spacing : ℚ × ℚ × ℚ

namespace TargetRegion

/-- int(np.sum(mask)): the number of set mask elements. -/
def voxel_count (t : TargetRegion) : ℕ := t.mask.card

/-- Physical volume: voxel count times the voxel volume. -/
def volume_mm3 (t : TargetRegion) : ℚ :=
  (t.voxel_count : ℚ) *
    (t.voxel_spacing.1 * t.voxel_spacing.2.1 * t.voxel_spacing.2.2)

/-- Mean of one coordinate axis over the set voxels. -/
def axisMean (s : Finset Coord) (f : Coord → ℕ) : ℚ :=
  (Finset.sum s fun q => (f q : ℚ)) / (s.card : ℚ)

/-- Centroid in voxel coordinates: per-axis mean of the coordinates of
the set voxels, as exact rationals. -/
def centroid_voxels (t : TargetRegion) : ℚ × ℚ × ℚ :=
  (axisMean t.mask (fun q => q.1), axisMean t.mask (fun q => q.2.1),
    axisMean t.mask (fun q => q.2.2))

/-- Centroid in physical coordinates: the voxel centroid scaled
per-axis by the spacing. -/
def centroid_physical (t : TargetRegion) : ℚ × ℚ × ℚ :=
  ((centroid_voxels t).1 * t.voxel_spacing.1,
    (centroid_voxels t).2.1 * t.voxel_spacing.2.1,
    (centroid_voxels t).2.2 * t.voxel_spacing.2.2)

/-- Minimum of one coordinate axis over the set voxels (np.min over
the argwhere coordinates; meaningful for a nonempty mask). -/
def axisMin (s : Finset ℕ) : ℕ := if h : s.Nonempty then s.min' h else 0

/-- Maximum of one coordinate axis over the set voxels. -/
def axisMax (s : Finset ℕ) : ℕ := if h : s.Nonempty then s.max' h else 0

/-- Axis-aligned bounding box, inclusive (min, max) per axis. -/
def bounding_box (t : TargetRegion) : (ℕ × ℕ) × (ℕ × ℕ) × (ℕ × ℕ) :=
  ((axisMin (t.mask.image fun q => q.1), axisMax (t.mask.image fun q => q.1)),
    (axisMin (t.mask.image fun q => q.2.1), axisMax (t.mask.image fun q => q.2.1)),
    (axisMin (t.mask.image fun q => q.2.2), axisMax (t.mask.image fun q => q.2.2)))

end TargetRegion

/-- metrics.compute_target_metrics: the flat metrics mapping, in the
insertion order of the source dict.  Python ints and floats are both
embedded as exact rationals. -/
def compute_target_metrics (t : TargetRegion) : List (String × ℚ) :=
  [("volume_mm3", t.volume_mm3),
   ("voxel_count", (t.voxel_count : ℚ)),
   ("centroid_voxel_x", (t.centroid_voxels).1),
   ("centroid_voxel_y", (t.centroid_voxels).2.1),
   ("centroid_voxel_z", (t.centroid_voxels).2.2),
   ("centroid_physical_x_mm", (t.centroid_physical).1),
   ("centroid_physical_y_mm", (t.centroid_physical).2.1),
   ("centroid_physical_z_mm", (t.centroid_physical).2.2),
   ("bbox_x_min", ((t.bounding_box).1.1 : ℚ)),
   ("bbox_x_max", ((t.bounding_box).1.2 : ℚ)),
   ("bbox_y_min", ((t.bounding_box).2.1.1 : ℚ)),
   ("bbox_y_max", ((t.bounding_box).2.1.2 : ℚ)),
   ("bbox_z_min", ((t.bounding_box).2.2.1 : ℚ)),
   ("bbox_z_max", ((t.bounding_box).2.2.2 : ℚ)),
   ("bbox_width_voxels", ((t.bounding_box).1.2 : ℚ) - ((t.bounding_box).1.1 : ℚ) + 1),
   ("bbox_height_voxels", ((t.bounding_box).2.1.2 : ℚ) - ((t.bounding_box).2.1.1 : ℚ) + 1),
   ("bbox_depth_voxels", ((t.bounding_box).2.2.2 : ℚ) - ((t.bounding_box).2.2.1 : ℚ) + 1),
   ("bbox_width_mm",
     (((t.bounding_box).1.2 : ℚ) - ((t.bounding_box).1.1 : ℚ) + 1) * t.voxel_spacing.1),
   ("bbox_height_mm",
     (((t.bounding_box).2.1.2 : ℚ) - ((t.bounding_box).2.1.1 : ℚ) + 1) * t.voxel_spacing.2.1),
   ("bbox_depth_mm",
     (((t.bounding_box).2.2.2 : ℚ) - ((t.bounding_box).2.2.1 : ℚ) + 1) * t.voxel_spacing.2.2),
   ("voxel_spacing_x_mm", t.voxel_spacing.1),
   ("voxel_spacing_y_mm", t.voxel_spacing.2.1),
   ("voxel_spacing_z_mm", t.voxel_spacing.2.2)]

/-! ### Concrete example inputs -/

/-- The identity affine, row by row. -/
def idAffine : List (List Sample) :=
  [[.val 1, .val 0, .val 0, .val 0],
   [.val 0, .val 1, .val 0, .val 0],
   [.val 0, .val 0, .val 1, .val 0],
   [.val 0, .val 0, .val 0, .val 1]]

/-- An 8x8x8 volume that passes every check except voxel spacing: the
x spacing is -inf, which fails the positivity check and nothing else. -/
def c1img : ImageData :=
  { shape := [8, 8, 8],
    values := List.replicate 256 (.val 0) ++ List.replicate 256 (.val 1),
    voxel_spacing := (.negInf, .val 1, .val 1),
    affine := idAffine }

/-- A 4x4 (2D) array: wrong rank for the pipeline. -/
def c5img : ImageData :=
  { shape := [4, 4],
    values := List.replicate 16 (.val 0),
    voxel_spacing := (.val 1, .val 1, .val 1),
    affine := idAffine }

/-- A tiny 3D volume holding one NaN sample out of two. -/
def c6img : ImageData :=
  { shape := [1, 1, 2],
    values := [.nan, .val 0],
    voxel_spacing := (.val 1, .val 1, .val 1),
    affine := idAffine }

/-- An affine whose rotation/scale part is diag(-1, 1, 1): a pure
reflection, determinant -1. -/
def c7aff : List (List Sample) :=
  [[.val (-1), .val 0, .val 0, .val 0],
   [.val 0, .val 1, .val 0, .val 0],
   [.val 0, .val 0, .val 1, .val 0],
   [.val 0, .val 0, .val 0, .val 1]]

/-- A mask with a two-voxel component and an isolated voxel. -/
def m2 : Finset Coord := {(0, 0, 0), (0, 0, 1), (5, 5, 5)}

/-- The two-voxel component of m2. -/
def c2set : Finset Coord := {(0, 0, 0), (0, 0, 1)}

/-- A single-voxel mask. -/
def m10 : Finset Coord := {(3, 4, 5)}

/-! ### Lemmas: connected components -/

theorem faceAdj_symm {p q : Coord} (h : faceAdj p q) : faceAdj q p := by
  unfold faceAdj at h ⊢
  tauto

theorem reach_symm {s : Finset Coord} {a b : Coord} (h : reach s a b) : reach s b a := by
  induction h with
  | refl => exact Relation.ReflTransGen.refl
  | tail _ h2 ih =>
      exact Relation.ReflTransGen.trans
        (Relation.ReflTransGen.single ⟨h2.2.1, h2.1, faceAdj_symm h2.2.2⟩) ih

theorem reach_mem_right {s : Finset Coord} {a b : Coord} (ha : a ∈ s) (h : reach s a b) :
    b ∈ s := by
  induction h with
  | refl => exact ha
  | tail _ h2 _ => exact h2.2.1

theorem subset_grow (s t : Finset Coord) : t ⊆ grow s t :=
  Finset.subset_union_left

theorem grow_subset (s t : Finset Coord) : grow s t ⊆ t ∪ s :=
  Finset.union_subset_union_right (Finset.filter_subset _ _)

theorem subset_iterate_grow (s t : Finset Coord) (n : ℕ) : t ⊆ (grow s)^[n] t := by
  induction n with
  | zero => simp
  | succ n ih =>
      rw [Function.iterate_succ_apply']
      exact ih.trans (subset_grow _ _)

theorem iterate_grow_subset (s t : Finset Coord) (n : ℕ) (h : t ⊆ s) :
    (grow s)^[n] t ⊆ s := by
  induction n with
  | zero => simpa using h
  | succ n ih =>
      rw [Function.iterate_succ_apply']
      refine (grow_subset _ _).trans ?_
      simp [Finset.union_subset_iff, ih]

theorem grow_fix_iterate (s t : Finset Coord) (h : grow s t = t) (n : ℕ) :
    (grow s)^[n] t = t := by
  induction n with
  | zero => rfl
  | succ n ih => rw [Function.iterate_succ_apply', ih, h]

theorem compOf_fix {s : Finset Coord} {p : Coord} (hp : p ∈ s) :
    grow s (compOf s p) = compOf s p := by
  by_cases hfix : ∃ k, k < s.card ∧ grow s ((grow s)^[k] {p}) = (grow s)^[k] {p}
  · obtain ⟨k, hk, hfx⟩ := hfix
    have hcomp : compOf s p = (grow s)^[k] {p} := by
      unfold compOf
      have hcard : s.card = (s.card - k) + k := by omega
      rw [hcard, Function.iterate_add_apply]
      exact grow_fix_iterate _ _ hfx _
    rw [hcomp]
    exact hfx
  · exfalso
    push_neg at hfix
    have hmono : ∀ k, k ≤ s.card → k + 1 ≤ ((grow s)^[k] {p}).card := by
      intro k
      induction k with
      | zero => intro _; simp
      | succ k ih =>
          intro hk
          have h1 : k + 1 ≤ ((grow s)^[k] {p}).card := ih (by omega)
          have hne : grow s ((grow s)^[k] {p}) ≠ (grow s)^[k] {p} := hfix k (by omega)
          have hss : (grow s)^[k] {p} ⊂ grow s ((grow s)^[k] {p}) :=
            Finset.ssubset_iff_subset_ne.mpr ⟨subset_grow _ _, fun heq => hne heq.symm⟩
          have h2 := Finset.card_lt_card hss
          rw [Function.iterate_succ_apply']
          omega
    have hbound : ((grow s)^[s.card] {p}).card ≤ s.card := by
      apply Finset.card_le_card
      exact iterate_grow_subset s {p} s.card (by simpa using hp)
    have := hmono s.card le_rfl
    omega

theorem mem_compOf_self (s : Finset Coord) (p : Coord) : p ∈ compOf s p :=
  subset_iterate_grow s {p} s.card (Finset.mem_singleton_self p)

theorem compOf_subset {s : Finset Coord} {p : Coord} (hp : p ∈ s) :
    compOf s p ⊆ s :=
  iterate_grow_subset s {p} s.card (by simpa using hp)

theorem mem_compOf_of_reach {s : Finset Coord} {p q : Coord} (hp : p ∈ s)
    (h : reach s p q) : q ∈ compOf s p := by
  induction h with
  | refl => exact mem_compOf_self s p
  | @tail b c _ h2 ih =>
      rw [← compOf_fix hp]
      unfold grow
      apply Finset.mem_union_right
      rw [Finset.mem_filter]
      exact ⟨h2.2.1, b, ih, h2.2.2⟩

theorem reach_of_mem_compOf {s : Finset Coord} {p q : Coord} (hp : p ∈ s)
    (h : q ∈ compOf s p) : reach s p q := by
  suffices H : ∀ n (q : Coord), q ∈ (grow s)^[n] {p} → reach s p q from H _ _ h
  intro n
  induction n with
  | zero =>
      intro q hq
      simp only [Function.iterate_zero_apply, Finset.mem_singleton] at hq
      subst hq
      exact Relation.ReflTransGen.refl
  | succ n ih =>
      intro q hq
      rw [Function.iterate_succ_apply'] at hq
      unfold grow at hq
      rcases Finset.mem_union.mp hq with h1 | h1
      · exact ih q h1
      · rw [Finset.mem_filter] at h1
        obtain ⟨hqs, r, hr, hadj⟩ := h1
        have hrs : r ∈ s := iterate_grow_subset s {p} n (by simpa using hp) hr
        exact (ih r hr).tail ⟨hrs, hqs, hadj⟩

theorem mem_compOf_iff {s : Finset Coord} {p q : Coord} (hp : p ∈ s) :
    q ∈ compOf s p ↔ reach s p q :=
  ⟨reach_of_mem_compOf hp, mem_compOf_of_reach hp⟩

theorem isComponent_compOf {s : Finset Coord} {p : Coord} (hp : p ∈ s) :
    isComponent s (compOf s p) := by
  refine ⟨⟨p, mem_compOf_self s p⟩, ?_, ?_, ?_⟩
  · exact_mod_cast compOf_subset hp
  · intro a ha b hb
    exact Relation.ReflTransGen.trans (reach_symm (reach_of_mem_compOf hp ha))
      (reach_of_mem_compOf hp hb)
  · intro a ha b _ hab
    exact mem_compOf_of_reach hp ((reach_of_mem_compOf hp ha).trans hab)

theorem mem_componentsList_iff {s : Finset Coord} {C : Finset Coord} :
    C ∈ componentsList s ↔ ∃ p ∈ s, C = compOf s p := by
  unfold componentsList
  rw [List.mem_dedup, List.mem_map]
  constructor
  · rintro ⟨p, hp, rfl⟩
    exact ⟨p, (Finset.mem_sort _).mp hp, rfl⟩
  · rintro ⟨p, hp, rfl⟩
    exact ⟨p, (Finset.mem_sort _).mpr hp, rfl⟩

theorem isComponent_of_mem_componentsList {s C : Finset Coord}
    (h : C ∈ componentsList s) : isComponent s C := by
  obtain ⟨p, hp, rfl⟩ := mem_componentsList_iff.mp h
  exact isComponent_compOf hp

theorem compOf_mem_componentsList {s : Finset Coord} {p : Coord} (hp : p ∈ s) :
    compOf s p ∈ componentsList s :=
  mem_componentsList_iff.mpr ⟨p, hp, rfl⟩

theorem componentsList_eq_nil_iff {s : Finset Coord} :
    componentsList s = [] ↔ s = ∅ := by
  constructor
  · intro h
    rw [← Finset.not_nonempty_iff_eq_empty]
    rintro ⟨p, hp⟩
    have := compOf_mem_componentsList hp
    rw [h] at this
    exact absurd this (List.not_mem_nil _)
  · intro h
    subst h
    unfold componentsList
    rw [Finset.sort_empty]
    rfl

/-! ### Lemmas: volume-sorted selection -/

theorem sortedComps_sorted (mask : Finset Coord) (sp : ℚ × ℚ × ℚ) :
    (sortedComps mask sp).Sorted volGe :=
  List.sorted_insertionSort _ _

theorem mem_sortedComps {mask : Finset Coord} {sp : ℚ × ℚ × ℚ} {x : Finset Coord × ℚ} :
    x ∈ sortedComps mask sp ↔ x ∈ (componentsList mask).map (fun c => (c, compVolume sp c)) :=
  List.mem_insertionSort _

theorem sortedComps_length (mask : Finset Coord) (sp : ℚ × ℚ × ℚ) :
    (sortedComps mask sp).length = (componentsList mask).length := by
  unfold sortedComps
  rw [List.length_insertionSort, List.length_map]

theorem sorted_find?_spec {l : List (Finset Coord × ℚ)} (hs : l.Sorted volGe)
    {minV : ℚ} {cv : Finset Coord × ℚ}
    (h : l.find? (fun x => decide (minV ≤ x.2)) = some cv) :
    cv ∈ l ∧ minV ≤ cv.2 ∧ ∀ y ∈ l, y.2 ≤ cv.2 := by
  have hmem : cv ∈ l := List.mem_of_find?_eq_some h
  have hpred : minV ≤ cv.2 := by simpa using List.find?_some h
  refine ⟨hmem, hpred, ?_⟩
  cases l with
  | nil => cases hmem
  | cons hd tl =>
      have hcvhd : cv.2 ≤ hd.2 := by
        rcases List.mem_cons.mp hmem with rfl | htl
        · exact le_rfl
        · exact List.rel_of_sorted_cons hs _ htl
      have hhd : (fun x : Finset Coord × ℚ => decide (minV ≤ x.2)) hd = true := by
        simpa using hpred.trans hcvhd
      have hfhd : (hd :: tl).find? (fun x => decide (minV ≤ x.2)) = some hd :=
        List.find?_cons_of_pos _ hhd
      rw [hfhd] at h
      obtain rfl : hd = cv := by simpa using h
      intro y hy
      rcases List.mem_cons.mp hy with rfl | hytl
      · exact le_rfl
      · exact List.rel_of_sorted_cons hs _ hytl

theorem sorted_find?_mono {l : List (Finset Coord × ℚ)} (hs : l.Sorted volGe)
    {min1 min2 : ℚ} {cv : Finset Coord × ℚ} (h12 : min1 ≤ min2)
    (h : l.find? (fun x => decide (min2 ≤ x.2)) = some cv) :
    l.find? (fun x => decide (min1 ≤ x.2)) = some cv := by
  obtain ⟨hmem, hpred, hdom⟩ := sorted_find?_spec hs h
  cases l with
  | nil => cases hmem
  | cons hd tl =>
      have hcvhd : cv.2 ≤ hd.2 := by
        rcases List.mem_cons.mp hmem with rfl | htl
        · exact le_rfl
        · exact List.rel_of_sorted_cons hs _ htl
      have hfhd : (hd :: tl).find? (fun x => decide (min2 ≤ x.2)) = some hd :=
        List.find?_cons_of_pos _ (by simpa using hpred.trans hcvhd)
      rw [hfhd] at h
      obtain rfl : hd = cv := by simpa using h
      exact List.find?_cons_of_pos _ (by simpa using (h12.trans hpred))

theorem extract_eq_some_spec {mask : Finset Coord} {minV : ℚ} {sp : ℚ × ℚ × ℚ}
    {m : Finset Coord}
    (h : extract_largest_connected_component mask minV sp = some m) :
    m ∈ componentsList mask ∧ minV ≤ compVolume sp m ∧
      ∀ C ∈ componentsList mask, compVolume sp C ≤ compVolume sp m := by
  unfold extract_largest_connected_component at h
  by_cases hlen : (componentsList mask).length = 0
  · rw [if_pos hlen] at h
    cases h
  · rw [if_neg hlen] at h
    cases hfind : (sortedComps mask sp).find? (fun cv => decide (minV ≤ cv.2)) with
    | none => rw [hfind] at h; cases h
    | some cv =>
        rw [hfind] at h
        obtain rfl : cv.1 = m := by simpa using h
        obtain ⟨hmem, hpred, hdom⟩ := sorted_find?_spec (sortedComps_sorted mask sp) hfind
        obtain ⟨C, hC, hCcv⟩ := List.mem_map.mp (mem_sortedComps.mp hmem)
        subst hCcv
        refine ⟨hC, hpred, ?_⟩
        intro C2 hC2
        exact hdom _ (mem_sortedComps.mpr (List.mem_map.mpr ⟨C2, hC2, rfl⟩))

theorem extract_eq_none_spec {mask : Finset Coord} {minV : ℚ} {sp : ℚ × ℚ × ℚ}
    (h : extract_largest_connected_component mask minV sp = none) :
    mask = ∅ ∨ ∀ C ∈ componentsList mask, compVolume sp C < minV := by
  unfold extract_largest_connected_component at h
  by_cases hlen : (componentsList mask).length = 0
  · exact Or.inl (componentsList_eq_nil_iff.mp (List.length_eq_zero.mp hlen))
  · rw [if_neg hlen] at h
    cases hfind : (sortedComps mask sp).find? (fun cv => decide (minV ≤ cv.2)) with
    | some cv => rw [hfind] at h; cases h
    | none =>
        right
        intro C hC
        have hmem : (C, compVolume sp C) ∈ sortedComps mask sp :=
          mem_sortedComps.mpr (List.mem_map.mpr ⟨C, hC, rfl⟩)
        have := List.find?_eq_none.mp hfind _ hmem
        simpa using this

/-! ### Claims about the component extractor -/

/-- Claim C2: for every binary mask, minimum volume and positive
spacing triple, extract_largest_connected_component labels the
connected components of the mask under 6-connectivity (every
foreground voxel is covered by a listed component, and every listed
component is a genuine component: nonempty, within the mask, mutually
reachable and closed under in-mask face adjacency), computes each
component volume as its voxel count times spacing_x * spacing_y *
spacing_z, and returns the component of largest volume among those
reaching min_volume_mm3, as the set of exactly that component's
voxels; it returns none exactly when there are no components or no
component volume reaches min_volume_mm3. -/
theorem claim_C2 (mask : Finset Coord) (min_volume_mm3 : ℚ) (sp : ℚ × ℚ × ℚ)
    (hx : 0 < sp.1) (hy : 0 < sp.2.1) (hz : 0 < sp.2.2) :
    (∀ p ∈ mask, ∃ C ∈ componentsList mask, p ∈ C) ∧
    (∀ C ∈ componentsList mask, isComponent mask C) ∧
    (∀ m, extract_largest_connected_component mask min_volume_mm3 sp = some m →
      m ∈ componentsList mask ∧ isComponent mask m ∧
      compVolume sp m = (m.card : ℚ) * (sp.1 * sp.2.1 * sp.2.2) ∧
      min_volume_mm3 ≤ compVolume sp m ∧
      ∀ C ∈ componentsList mask, compVolume sp C ≤ compVolume sp m) ∧
    (extract_largest_connected_component mask min_volume_mm3 sp = none ↔
      mask = ∅ ∨ ∀ C ∈ componentsList mask, compVolume sp C < min_volume_mm3) := by
  refine ⟨?_, fun C hC => isComponent_of_mem_componentsList hC, ?_, ?_, ?_⟩
  · intro p hp
    exact ⟨compOf mask p, compOf_mem_componentsList hp, mem_compOf_self mask p⟩
  · intro m hm
    obtain ⟨h1, h2, h3⟩ := extract_eq_some_spec hm
    exact ⟨h1, isComponent_of_mem_componentsList h1, rfl, h2, h3⟩
  · exact extract_eq_none_spec
  · intro h
    cases hres : extract_largest_connected_component mask min_volume_mm3 sp with
    | none => rfl
    | some m =>
        exfalso
        obtain ⟨h1, h2, _⟩ := extract_eq_some_spec hres
        rcases h with h | h
        · subst h
          rw [componentsList_eq_nil_iff.mpr rfl] at h1
          exact absurd h1 (List.not_mem_nil _)
        · exact absurd h2 (not_le.mpr (h m h1))

/-- Witness for C2 at the mask with a two-voxel component and an
isolated voxel, spacing (1, 1, 1) and minimum volume 2: the two-voxel
component is selected. -/
theorem claim_C2_witness :
    (0:ℚ) < 1 ∧ c2set ∈ componentsList m2 ∧ (2:ℚ) ≤ compVolume (1, 1, 1) c2set := by
  obtain ⟨-, -, hsome, -⟩ :=
    claim_C2 m2 2 (1, 1, 1) (by norm_num) (by norm_num) (by norm_num)
  have he : extract_largest_connected_component m2 2 (1, 1, 1) = some c2set := by
    with_unfolding_all rfl
  obtain ⟨h1, -, -, h4, -⟩ := hsome c2set he
  exact ⟨by norm_num, h1, h4⟩

/-- Claim C4: component selection is monotone in the minimum-volume
bound.  If min1 is at most min2 and a component is selected at min2,
then the very same component is selected at min1 (so it was not
rejected there), and its volume clears both bounds; in particular a
component rejected as too small at min1 is never selected at min2, and
raising the bound can only keep the selection or turn it into none. -/
theorem claim_C4 (mask : Finset Coord) (sp : ℚ × ℚ × ℚ) (min1 min2 : ℚ)
    (h12 : min1 ≤ min2) (hx : 0 < sp.1) (hy : 0 < sp.2.1) (hz : 0 < sp.2.2) :
    ∀ m, extract_largest_connected_component mask min2 sp = some m →
      extract_largest_connected_component mask min1 sp = some m ∧
      min1 ≤ compVolume sp m ∧ min2 ≤ compVolume sp m := by
  intro m h
  have hspec := extract_eq_some_spec h
  refine ⟨?_, h12.trans hspec.2.1, hspec.2.1⟩
  unfold extract_largest_connected_component at h ⊢
  by_cases hlen : (componentsList mask).length = 0
  · rw [if_pos hlen] at h
    cases h
  · rw [if_neg hlen] at h ⊢
    cases hfind : (sortedComps mask sp).find? (fun cv => decide (min2 ≤ cv.2)) with
    | none => rw [hfind] at h; cases h
    | some cv =>
        rw [hfind] at h
        rw [sorted_find?_mono (sortedComps_sorted mask sp) h12 hfind]
        exact h

/-- Witness for C4 at the same mask, with bounds 1 and 2. -/
theorem claim_C4_witness :
    (1:ℚ) ≤ 2 ∧ extract_largest_connected_component m2 1 (1, 1, 1) = some c2set ∧
      (1:ℚ) ≤ compVolume (1, 1, 1) c2set := by
  have h := claim_C4 m2 (1, 1, 1) 1 2 (by norm_num) (by norm_num) (by norm_num)
    (by norm_num) c2set (by with_unfolding_all rfl)
  exact ⟨by norm_num, h.1, h.2.1⟩

/-- Claim C10: on a nonempty mask with strictly positive spacing,
every component has strictly positive physical volume, so
extract_largest_connected_component with minimum volume 0 always
selects some component. -/
theorem claim_C10 (mask : Finset Coord) (sp : ℚ × ℚ × ℚ) (hne : mask.Nonempty)
    (hx : 0 < sp.1) (hy : 0 < sp.2.1) (hz : 0 < sp.2.2) :
    (∀ C ∈ componentsList mask, 0 < compVolume sp C) ∧
    ∃ m, extract_largest_connected_component mask 0 sp = some m := by
  have hpos : ∀ C ∈ componentsList mask, 0 < compVolume sp C := by
    intro C hC
    have hCne : C.Nonempty := (isComponent_of_mem_componentsList hC).1
    have hcard : (0:ℚ) < (C.card : ℚ) := by
      exact_mod_cast Finset.card_pos.mpr hCne
    exact mul_pos hcard (mul_pos (mul_pos hx hy) hz)
  refine ⟨hpos, ?_⟩
  have hlen : ¬ (componentsList mask).length = 0 := by
    intro h0
    rw [List.length_eq_zero] at h0
    exact Finset.nonempty_iff_ne_empty.mp hne (componentsList_eq_nil_iff.mp h0)
  unfold extract_largest_connected_component
  rw [if_neg hlen]
  cases hsc : sortedComps mask sp with
  | nil =>
      exfalso
      have hl := sortedComps_length mask sp
      rw [hsc] at hl
      exact hlen hl.symm
  | cons hd tl =>
      have hhd_mem : hd ∈ sortedComps mask sp := by
        rw [hsc]
        exact List.mem_cons_self _ _
      obtain ⟨C, hC, hCcv⟩ := List.mem_map.mp (mem_sortedComps.mp hhd_mem)
      have h0le : (0:ℚ) ≤ hd.2 := by
        rw [← hCcv]
        exact (hpos C hC).le
      rw [List.find?_cons_of_pos _ (by simpa using h0le)]
      exact ⟨hd.1, rfl⟩

/-- Witness for C10 at a single-voxel mask with unit spacing. -/
theorem claim_C10_witness :
    m10.Nonempty ∧ ∃ m, extract_largest_connected_component m10 0 (1, 1, 1) = some m := by
  have h := claim_C10 m10 (1, 1, 1) (by decide) (by norm_num) (by norm_num) (by norm_num)
  exact ⟨by decide, h.2⟩

/-! ### Claims about the target region and metrics -/

theorem axisMean_between (s : Finset Coord) (h : s.Nonempty) (f : Coord → ℕ) :
    (TargetRegion.axisMin (s.image f) : ℚ) ≤ TargetRegion.axisMean s f ∧
      TargetRegion.axisMean s f ≤ (TargetRegion.axisMax (s.image f) : ℚ) := by
  have himg : (s.image f).Nonempty := h.image f
  have hcard : (0:ℚ) < (s.card : ℚ) := by
    exact_mod_cast Finset.card_pos.mpr h
  unfold TargetRegion.axisMean TargetRegion.axisMin TargetRegion.axisMax
  rw [dif_pos himg, dif_pos himg]
  constructor
  · rw [le_div_iff hcard, mul_comm, ← nsmul_eq_mul]
    refine Finset.card_nsmul_le_sum s _ _ ?_
    intro q hq
    exact_mod_cast Finset.min'_le _ _ (Finset.mem_image_of_mem f hq)
  · rw [div_le_iff hcard, mul_comm, ← nsmul_eq_mul]
    refine Finset.sum_le_card_nsmul s _ _ ?_
    intro q hq
    exact_mod_cast Finset.le_max' _ _ (Finset.mem_image_of_mem f hq)

/-- Claim C3: for a target region built over a nonempty mask and
positive spacing, the voxel centroid lies within the bounding box on
every axis, the voxel count equals the number of set mask elements,
and the physical volume is the voxel count times
spacing_x * spacing_y * spacing_z. -/
theorem claim_C3 (t : TargetRegion) (hne : t.mask.Nonempty)
    (hx : 0 < t.voxel_spacing.1) (hy : 0 < t.voxel_spacing.2.1)
    (hz : 0 < t.voxel_spacing.2.2) :
    (((t.bounding_box.1.1 : ℚ) ≤ t.centroid_voxels.1 ∧
        t.centroid_voxels.1 ≤ (t.bounding_box.1.2 : ℚ)) ∧
      ((t.bounding_box.2.1.1 : ℚ) ≤ t.centroid_voxels.2.1 ∧
        t.centroid_voxels.2.1 ≤ (t.bounding_box.2.1.2 : ℚ)) ∧
      ((t.bounding_box.2.2.1 : ℚ) ≤ t.centroid_voxels.2.2 ∧
        t.centroid_voxels.2.2 ≤ (t.bounding_box.2.2.2 : ℚ))) ∧
    t.voxel_count = t.mask.card ∧
    t.volume_mm3 =
      (t.voxel_count : ℚ) *
        (t.voxel_spacing.1 * t.voxel_spacing.2.1 * t.voxel_spacing.2.2) := by
  refine ⟨⟨?_, ?_, ?_⟩, rfl, rfl⟩
  · exact axisMean_between t.mask hne (fun q => q.1)
  · exact axisMean_between t.mask hne (fun q => q.2.1)
  · exact axisMean_between t.mask hne (fun q => q.2.2)

/-- Witness for C3 at the two-voxel mask with unit spacing. -/
theorem claim_C3_witness :
    c2set.Nonempty ∧
      ((TargetRegion.mk c2set 1 (1, 1, 1)).bounding_box.1.1 : ℚ) ≤
        (TargetRegion.mk c2set 1 (1, 1, 1)).centroid_voxels.1 := by
  have h := claim_C3 (TargetRegion.mk c2set 1 (1, 1, 1)) (by decide)
    (by norm_num) (by norm_num) (by norm_num)
  exact ⟨by decide, h.1.1.1⟩

/-- Claim C8: compute_target_metrics returns exactly the enumerated
literal keys, in the insertion order of the source, and its
bounding-box extent entries are the inclusive voxel extents
max - min + 1 per axis, scaled by the matching spacing component for
the millimetre variants. -/
theorem claim_C8 (t : TargetRegion) :
    (compute_target_metrics t).map Prod.fst =
      ["volume_mm3", "voxel_count",
       "centroid_voxel_x", "centroid_voxel_y", "centroid_voxel_z",
       "centroid_physical_x_mm", "centroid_physical_y_mm", "centroid_physical_z_mm",
       "bbox_x_min", "bbox_x_max", "bbox_y_min", "bbox_y_max",
       "bbox_z_min", "bbox_z_max",
       "bbox_width_voxels", "bbox_height_voxels", "bbox_depth_voxels",
       "bbox_width_mm", "bbox_height_mm", "bbox_depth_mm",
       "voxel_spacing_x_mm", "voxel_spacing_y_mm", "voxel_spacing_z_mm"] ∧
    ("bbox_width_voxels", ((t.bounding_box.1.2 : ℚ) - (t.bounding_box.1.1 : ℚ) + 1)) ∈
      compute_target_metrics t ∧
    ("bbox_height_voxels", ((t.bounding_box.2.1.2 : ℚ) - (t.bounding_box.2.1.1 : ℚ) + 1)) ∈
      compute_target_metrics t ∧
    ("bbox_depth_voxels", ((t.bounding_box.2.2.2 : ℚ) - (t.bounding_box.2.2.1 : ℚ) + 1)) ∈
      compute_target_metrics t ∧
    ("bbox_width_mm",
        (((t.bounding_box.1.2 : ℚ) - (t.bounding_box.1.1 : ℚ) + 1) * t.voxel_spacing.1)) ∈
      compute_target_metrics t ∧
    ("bbox_height_mm",
        (((t.bounding_box.2.1.2 : ℚ) - (t.bounding_box.2.1.1 : ℚ) + 1) * t.voxel_spacing.2.1)) ∈
      compute_target_metrics t ∧
    ("bbox_depth_mm",
        (((t.bounding_box.2.2.2 : ℚ) - (t.bounding_box.2.2.1 : ℚ) + 1) * t.voxel_spacing.2.2)) ∈
      compute_target_metrics t := by
  refine ⟨rfl, ?_, ?_, ?_, ?_, ?_, ?_⟩ <;> simp [compute_target_metrics]

/-! ### Claims about the validator -/

/-- Claim C5: for data of rank other than 3, validate_image_data
reports exactly the one dimensionality error, records no warnings and
no passed checks from later checks (they are all skipped), and the
report is invalid. -/
theorem claim_C5 (img : ImageData) (minDim maxDim : ℕ) (rng : Option (ℚ × ℚ))
    (h : img.shape.length ≠ 3) :
    validate_image_data img minDim maxDim rng = ⟨[], [], [ndimErrMsg img.shape]⟩ ∧
    (validate_image_data img minDim maxDim rng).is_valid = false := by
  have hrep : validate_image_data img minDim maxDim rng = ⟨[], [], [ndimErrMsg img.shape]⟩ := by
    unfold validate_image_data
    rw [if_pos h]
  exact ⟨hrep, by rw [hrep]; rfl⟩

/-- Witness for C5 at a 4x4 two-dimensional array. -/
theorem claim_C5_witness :
    c5img.shape.length ≠ 3 ∧
      (validate_image_data c5img 8 2048 none).is_valid = false := by
  have h := claim_C5 c5img 8 2048 none (by decide)
  exact ⟨by decide, h.2⟩

/-- Claim C6: a rank-3 volume holding k NaN samples with k positive
yields a report containing the NaN error, whose text encodes exactly k
and the fraction k over the total sample count, and the report is
invalid. -/
theorem claim_C6 (img : ImageData) (minDim maxDim : ℕ) (rng : Option (ℚ × ℚ))
    (h3 : img.shape.length = 3) (hk : 0 < img.values.countP Sample.isNan) :
    nanErrMsg (img.values.countP Sample.isNan) img.size ∈
      (validate_image_data img minDim maxDim rng).errors ∧
    (validate_image_data img minDim maxDim rng).is_valid = false := by
  have hmem : nanErrMsg (img.values.countP Sample.isNan) img.size ∈
      (validate_image_data img minDim maxDim rng).errors := by
    unfold validate_image_data
    rw [if_neg (by omega)]
    unfold RJoin nanCheck
    rw [if_pos hk]
    simp [errR, ImageData.size]
  refine ⟨hmem, ?_⟩
  unfold ValidationReport.is_valid
  cases herrs : (validate_image_data img minDim maxDim rng).errors with
  | nil =>
      rw [herrs] at hmem
      cases hmem
  | cons a l => rfl

/-- Witness for C6 at a 1x1x2 volume holding one NaN sample. -/
theorem claim_C6_witness :
    c6img.shape.length = 3 ∧ 0 < c6img.values.countP Sample.isNan ∧
      (validate_image_data c6img 8 2048 none).is_valid = false := by
  have h := claim_C6 c6img 8 2048 none (by decide) (by decide)
  exact ⟨by decide, by decide, h.2⟩

/-- Claim C7: for a 4x4 all-finite affine whose bottom row is exactly
[0, 0, 0, 1], a negative determinant of magnitude at least 1e-10
yields no error and exactly the reflection warning (the report stays
valid), while a determinant of magnitude below 1e-10 yields the
singular-matrix error and an invalid report. -/
theorem claim_C7 (A : List (List Sample)) (hshape : affineShapeOk A)
    (hfin : affineAllFin A = true)
    (hbot : A.getD 3 [] = [Sample.val 0, Sample.val 0, Sample.val 0, Sample.val 1]) :
    (det3 A < 0 → 1 / 10 ^ 10 ≤ |det3 A| →
      (affineCheck A).errors = [] ∧
        (affineCheck A).warnings = [reflWarnMsg (det3 A)] ∧
        (affineCheck A).is_valid = true) ∧
    (|det3 A| < 1 / 10 ^ 10 →
      singularErrMsg (det3 A) ∈ (affineCheck A).errors ∧
        (affineCheck A).is_valid = false) := by
  have hbOk : bottomRowOk A := by
    unfold bottomRowOk affEntry
    rw [hbot]
    refine ⟨?_, ?_, ?_, ?_⟩ <;> · unfold closeTo Sample.valD; norm_num
  have hfin2 : (!affineAllFin A) = false := by rw [hfin]; rfl
  constructor
  · intro hneg hmag
    have hrep : affineCheck A =
        RJoin [passR "Affine matrix is 4x4",
               passR "Affine matrix contains only finite values",
               passR "Affine matrix bottom row is [0, 0, 0, 1]",
               passR ("Affine rotation/scale submatrix is non-singular (det=" ++
                 ratStr (det3 A) ++ ")"),
               warnR (reflWarnMsg (det3 A))] := by
      unfold affineCheck
      rw [if_neg (not_not_intro hshape), if_neg (by rw [hfin2]; exact Bool.false_ne_true),
        if_neg (not_not_intro hbOk), if_neg (not_lt.mpr hmag), if_pos hneg]
    rw [hrep]
    exact ⟨rfl, rfl, rfl⟩
  · intro hmag
    have hrep : affineCheck A =
        RJoin [passR "Affine matrix is 4x4",
               passR "Affine matrix contains only finite values",
               passR "Affine matrix bottom row is [0, 0, 0, 1]",
               errR (singularErrMsg (det3 A)),
               if det3 A < 0 then warnR (reflWarnMsg (det3 A)) else emptyR] := by
      unfold affineCheck
      rw [if_neg (not_not_intro hshape), if_neg (by rw [hfin2]; exact Bool.false_ne_true),
        if_neg (not_not_intro hbOk), if_pos hmag]
    constructor
    · rw [hrep]
      simp [RJoin, passR, errR, warnR, emptyR]
    · rw [hrep]
      unfold ValidationReport.is_valid RJoin
      simp [passR, errR, warnR, emptyR]

/-- Witness for C7 at a reflection affine diag(-1, 1, 1, 1). -/
theorem claim_C7_witness :
    det3 c7aff < 0 ∧ (affineCheck c7aff).errors = [] ∧
      (affineCheck c7aff).warnings = [reflWarnMsg (det3 c7aff)] := by
  have hdet : det3 c7aff < 0 := by
    have : det3 c7aff = -1 := by with_unfolding_all rfl
    rw [this]
    norm_num
  have h := (claim_C7 c7aff (by decide) (by decide) (by decide)).1 hdet
    (by
      have : det3 c7aff = -1 := by with_unfolding_all rfl
      rw [this]
      norm_num)
  exact ⟨hdet, h.1, h.2.1⟩

/-! ### Claims about the segmenter -/

theorem sorted_getD_le {l : List ℚ} (hs : l.Sorted (· ≤ ·)) {i j : ℕ}
    (hij : i ≤ j) (hj : j < l.length) : l.getD i 0 ≤ l.getD j 0 := by
  have hi : i < l.length := lt_of_le_of_lt hij hj
  rw [List.getD_eq_getElem l 0 hi, List.getD_eq_getElem l 0 hj]
  exact List.Sorted.rel_get_of_le hs (show (⟨i, hi⟩ : Fin l.length) ≤ ⟨j, hj⟩ from hij)

theorem np_percentile_exists_ge (xs : List ℚ) (p : ℚ) (hne : xs ≠ [])
    (hp0 : 0 ≤ p) (hp1 : p ≤ 100) :
    ∃ x ∈ xs, np_percentile xs p ≤ x := by
  have hn1 : 1 ≤ xs.length := List.length_pos.mpr hne
  set s := xs.insertionSort (· ≤ ·) with hs_def
  have hslen : s.length = xs.length := List.length_insertionSort _ _
  have hsorted : s.Sorted (· ≤ ·) := List.sorted_insertionSort _ _
  set h : ℚ := ((xs.length : ℚ) - 1) * p / 100 with hh_def
  have hhub : h ≤ (xs.length : ℚ) - 1 := by
    rw [hh_def, div_le_iff (by norm_num : (0:ℚ) < 100)]
    have hn0 : (0:ℚ) ≤ (xs.length : ℚ) - 1 := by
      have : (1:ℚ) ≤ (xs.length : ℚ) := by exact_mod_cast hn1
      linarith
    nlinarith
  have hceil : ⌈h⌉ ≤ (xs.length : ℤ) - 1 := by
    apply Int.ceil_le.mpr
    push_cast
    exact hhub
  have hhi_lt : ⌈h⌉.toNat < s.length := by
    rw [hslen]
    omega
  have hlo_le_hi : ⌊h⌋.toNat ≤ ⌈h⌉.toNat := by
    have := Int.floor_le_ceil h
    omega
  have hfr0 : 0 ≤ h - (⌊h⌋ : ℚ) := sub_nonneg.mpr (Int.floor_le h)
  have hfr1 : h - (⌊h⌋ : ℚ) ≤ 1 := by
    have := Int.lt_floor_add_one h
    push_cast at this ⊢
    linarith
  have hab : s.getD ⌊h⌋.toNat 0 ≤ s.getD ⌈h⌉.toNat 0 :=
    sorted_getD_le hsorted hlo_le_hi hhi_lt
  have hbmem : s.getD ⌈h⌉.toNat 0 ∈ s := by
    rw [List.getD_eq_getElem s 0 hhi_lt]
    exact List.getElem_mem hhi_lt
  refine ⟨s.getD ⌈h⌉.toNat 0, (List.mem_insertionSort _).mp hbmem, ?_⟩
  have hval : np_percentile xs p =
      s.getD ⌊h⌋.toNat 0 +
        (h - (⌊h⌋ : ℚ)) * (s.getD ⌈h⌉.toNat 0 - s.getD ⌊h⌋.toNat 0) := rfl
  rw [hval]
  nlinarith [mul_nonneg (sub_nonneg.mpr hfr1) (sub_nonneg.mpr hab)]

/-- Claim C9: for a nonempty finite sample list and a percentile in
[0, 100], apply_intensity_threshold always marks at least one voxel
(a maximal sample is at least the percentile value), so the count
guarding the empty-mask ProcessingError in
process_image_for_target_identification is never zero for data that
passed validation. -/
theorem claim_C9 (xs : List ℚ) (p : ℚ) (hne : xs ≠ []) (hp0 : 0 ≤ p)
    (hp1 : p ≤ 100) :
    (apply_intensity_threshold xs p).any (fun b => b) = true ∧
    voxels_above_threshold xs p ≠ 0 ∧
    ∀ x ∈ xs, (∀ y ∈ xs, y ≤ x) → np_percentile xs p ≤ x := by
  obtain ⟨b, hbmem, hble⟩ := np_percentile_exists_ge xs p hne hp0 hp1
  have hmask : true ∈ apply_intensity_threshold xs p := by
    unfold apply_intensity_threshold
    refine List.mem_map.mpr ⟨b, hbmem, ?_⟩
    simp [hble]
  refine ⟨List.any_eq_true.mpr ⟨true, hmask, rfl⟩, ?_, ?_⟩
  · unfold voxels_above_threshold
    have := List.count_pos_iff.mpr hmask
    omega
  · intro x hx hmax
    exact hble.trans (hmax b hbmem)

/-- Witness for C9 on the samples [1, 3, 2] at the 50th percentile. -/
theorem claim_C9_witness :
    ([1, 3, 2] : List ℚ) ≠ [] ∧ (0:ℚ) ≤ 50 ∧ (50:ℚ) ≤ 100 ∧
      voxels_above_threshold [1, 3, 2] 50 ≠ 0 := by
  have h := claim_C9 [1, 3, 2] 50 (by simp) (by norm_num) (by norm_num)
  exact ⟨by simp, by norm_num, by norm_num, h.2.1⟩

/-! ### Claim C1: classification of spacing-only failures -/

theorem countP_replicate {α : Type} (p : α → Bool) (n : ℕ) (a : α) :
    (List.replicate n a).countP p = if p a then n else 0 := by
  induction n with
  | zero => simp
  | succ n ih =>
      rw [List.replicate_succ, List.countP_cons, ih]
      by_cases h : p a <;> simp [h]

theorem any_replicate {α : Type} (p : α → Bool) (n : ℕ) (a : α) :
    (List.replicate n a).any p = if n = 0 then false else p a := by
  induction n with
  | zero => simp
  | succ n ih =>
      rw [List.replicate_succ, List.any_cons, ih]
      by_cases h : n = 0 <;> by_cases hp : p a <;> simp [h, hp]

theorem RJoin_errors (l : List ValidationReport) :
    (RJoin l).errors = (l.map ValidationReport.errors).flatten := rfl

theorem passR_errors (m : String) : (passR m).errors = [] := rfl

theorem c1_values_eval :
    c1img.values.map (Sample.valD 0) =
      List.replicate 256 (0:ℚ) ++ List.replicate 256 (1:ℚ) := by
  unfold c1img
  simp only [List.map_append, List.map_replicate]
  rfl

theorem c1_mean : ratMean (List.replicate 256 (0:ℚ) ++ List.replicate 256 (1:ℚ)) = 1 / 2 := by
  unfold ratMean
  rw [List.sum_append, List.sum_replicate, List.sum_replicate, List.length_append,
    List.length_replicate, List.length_replicate]
  norm_num

theorem c1_var : dataVar c1img.values = 1 / 4 := by
  unfold dataVar ratVar
  rw [c1_values_eval, c1_mean]
  rw [List.map_append, List.map_replicate, List.map_replicate, List.sum_append,
    List.sum_replicate, List.sum_replicate, List.length_append,
    List.length_replicate, List.length_replicate]
  norm_num

theorem c1_errors :
    (validate_image_data c1img 8 2048 none).errors = [spacingPosErrMsg 0 Sample.negInf] := by
  have hdims : (RJoin (c1img.shape.enum.map (fun q => dimSizeCheck 8 2048 q.1 q.2))).errors
      = [] := by decide
  have hnan : (nanCheck c1img.values).errors = [] := by
    unfold nanCheck c1img
    rw [List.countP_append, countP_replicate, countP_replicate]
    simp [Sample.isNan, passR]
  have hinf : (infCheck c1img.values).errors = [] := by
    unfold infCheck c1img
    rw [List.countP_append, countP_replicate, countP_replicate]
    simp [Sample.isInf, passR]
  have hstd : (stdCheck c1img.values).errors = [] := by
    unfold stdCheck
    have hguard : ¬ (dataVar c1img.values < (1 / 10 ^ 10 : ℚ) ^ 2) := by
      rw [c1_var]
      norm_num
    rw [decide_eq_false hguard]
    simp [passR]
  have hrange : (rangeCheck c1img.values none).errors = [] := rfl
  have hspOne : ∀ i, (spacingCheckOne i (Sample.val 1)).errors = [] := by
    intro i
    simp only [spacingCheckOne, Sample.leB, Sample.isFin, Sample.valD]
    norm_num [passR, warnR, errR]
  have hspacing : (spacingCheck c1img.voxel_spacing).errors =
      [spacingPosErrMsg 0 Sample.negInf] := by
    show (spacingCheck (Sample.negInf, Sample.val 1, Sample.val 1)).errors = _
    have h0 : spacingCheckOne 0 Sample.negInf = errR (spacingPosErrMsg 0 Sample.negInf) := by
      unfold spacingCheckOne
      rw [show Sample.leB Sample.negInf (Sample.val 0) = true from rfl]
      rfl
    unfold spacingCheck
    rw [RJoin_errors]
    simp only [List.map_cons, List.map_nil, List.flatten]
    rw [h0, hspOne 1, hspOne 2]
    rfl
  have haff : (affineCheck idAffine).errors = [] := by
    have hdet : det3 idAffine = 1 := by with_unfolding_all rfl
    have h30 : affEntry idAffine 3 0 = 0 := by with_unfolding_all rfl
    have h31 : affEntry idAffine 3 1 = 0 := by with_unfolding_all rfl
    have h32 : affEntry idAffine 3 2 = 0 := by with_unfolding_all rfl
    have h33 : affEntry idAffine 3 3 = 1 := by with_unfolding_all rfl
    have hbOk : bottomRowOk idAffine := by
      unfold bottomRowOk
      rw [h30, h31, h32, h33]
      refine ⟨?_, ?_, ?_, ?_⟩ <;> · unfold closeTo; norm_num
    unfold affineCheck
    rw [if_neg (not_not_intro (by decide : affineShapeOk idAffine))]
    rw [show (!affineAllFin idAffine) = false from rfl]
    rw [if_neg (by simp : ¬ (false = true))]
    rw [if_neg (not_not_intro hbOk)]
    rw [if_neg (by rw [hdet]; norm_num : ¬ (|det3 idAffine| < 1 / 10 ^ 10))]
    rw [if_neg (by rw [hdet]; norm_num : ¬ (det3 idAffine < 0))]
    simp [RJoin, passR, emptyR]
  unfold validate_image_data
  rw [if_neg (by decide : ¬ c1img.shape.length ≠ 3)]
  rw [RJoin_errors]
  simp only [List.map_cons, List.map_nil, List.flatten]
  rw [passR_errors, hdims, hnan, hinf, hstd, hrange, hspacing,
    show c1img.affine = idAffine from rfl, haff]
  rfl

/-- Claim C1, evaluated at the failing input: an 8x8x8 volume that is
invalid solely because of a voxel-spacing error nevertheless makes
validate_or_raise raise DimensionalityError, not the MetadataError the
claim (and the source docstring) promise, because every voxel-spacing
error message contains the word "dimension". -/
theorem claim_C1_code_eval :
    (validate_image_data c1img 8 2048 none).errors = [spacingPosErrMsg 0 Sample.negInf] ∧
    validate_or_raise c1img = RaisedError.dimensionality ∧
    validate_or_raise c1img ≠ RaisedError.metadata := by
  have herr := c1_errors
  have hdim : validate_or_raise c1img = RaisedError.dimensionality := by
    unfold validate_or_raise
    have hval : (validate_image_data c1img 8 2048 none).is_valid = false := by
      unfold ValidationReport.is_valid
      rw [herr]
      rfl
    simp only [hval, Bool.false_eq_true, if_false, herr]
    rw [if_pos ?hkw]
    case hkw =>
      show List.any _ _ = true
      rw [List.any_cons, List.any_nil]
      have : containsSub "dimension" (lowerStr (spacingPosErrMsg 0 Sample.negInf)) = true := by
        decide
      rw [this]
      simp
  exact ⟨herr, hdim, by rw [hdim]; decide⟩

end Pipeline
